import Mathlib

/-!
Shallow embedding of `umus_ftp/core.py` (a bulk FTP transfer engine) and proofs
about its specified behaviour.

Conventions used throughout:
* Machine state is passed explicitly.  `RemoteFS` models the FTP server's
  filesystem, `LocalFS` the local one; file contents are byte lists.
* Python exceptions become `Option UErr` results threaded together with the
  state reached at the point of the raise.
* `ftplib` session objects are modelled by `FtpSession` (a current-working
  directory cursor plus a closed flag); protocol commands act on the pair of a
  session and a `RemoteFS`.
* Calls that the code makes through the `ftp_object` decorator are recorded in
  an event trace (`Ev`), tagged with the session the decorator resolves for
  that particular call (`SessSpec`).
* CPython `multiprocessing` specifics (fork copy-on-write semantics, the
  work-queue interleavings of the pool workers) are modelled explicitly where a
  claim depends on them: see `ftp_multiple_upload` and `CStep`.
-/

namespace UmusFtp

/-- File contents: a sequence of bytes. -/
abbrev Content := List Nat

/-- The remote (FTP server) filesystem: files with contents, and the set of
directory paths. -/
structure RemoteFS where
  files : List (String × Content)
  dirs : List String
deriving DecidableEq

/-- The local filesystem seen by `os.path` / `open`. -/
structure LocalFS where
  files : List (String × Content)
  dirs : List String
deriving DecidableEq

/-- Association-list lookup of a file's content. -/
def lookupFile (fs : List (String × Content)) (p : String) : Option Content :=
  match fs with
  | [] => none
  | (q, c) :: rest => if q = p then some c else lookupFile rest p

/-- Write (create or overwrite) a file. -/
def setFile (fs : List (String × Content)) (p : String) (c : Content) :
    List (String × Content) :=
  match fs with
  | [] => [(p, c)]
  | (q, c0) :: rest => if q = p then (p, c) :: rest else (q, c0) :: setFile rest p c

/-- Does a file exist at `p`? -/
def hasFile (fs : List (String × Content)) (p : String) : Bool :=
  (lookupFile fs p).isSome

/-- Python `str.split('/')` on the underlying character list: splitting an empty
string gives `[""]`, adjacent separators give empty segments. -/
def splitSlash : List Char → List (List Char)
  | [] => [[]]
  | c :: cs =>
    if c = '/' then [] :: splitSlash cs
    else
      match splitSlash cs with
      | [] => [[c]]
      | g :: gs => (c :: g) :: gs

/-- `path.split('/')` as used by `mkdirs`. -/
def pySplit (p : String) : List String :=
  (splitSlash p.data).map (fun g => String.mk g)

/-- The characters strictly before the last `'/'` of the list, or `none` when no
`'/'` occurs.  Implements the head part of Python `p.rsplit('/', 1)`. -/
def beforeLastSlash : List Char → Option (List Char)
  | [] => none
  | c :: cs =>
    match beforeLastSlash cs with
    | some t => some (c :: t)
    | none => if c = '/' then some [] else none

/-- `dst.rsplit('/', 1)[0]` as used by `upload`: everything before the last
`'/'`, or the whole string when it contains no `'/'`. -/
def rsplitParent (p : String) : String :=
  match beforeLastSlash p.data with
  | some t => String.mk t
  | none => p

/-- `os.path.dirname` (posixpath): the head up to the last `'/'`, with trailing
slashes stripped unless the head consists only of slashes; `""` when there is no
`'/'` at all. -/
def osDirname (p : String) : String :=
  match beforeLastSlash p.data with
  | none => ""
  | some t =>
    let head := t ++ ['/']
    if head.all (fun c => c = '/') then String.mk head
    else String.mk ((head.reverse.dropWhile (fun c => c = '/')).reverse)

/-- `CFG.get('retries', 5)`. -/
def retriesOf (cfg : Option Nat) : Nat := cfg.getD 5

/-- `CFG.get('connections', 5)`: the worker-pool size. -/
def connectionsOf (cfg : Option Nat) : Nat := cfg.getD 5

/-- The errors the modelled operations can raise: `FileExistsError` (the spec's
`AlreadyExistsError`) and a missing-file error (`FileNotFoundError` locally,
`ftplib.error_perm` remotely). -/
inductive UErr where
  | alreadyExists
  | noSuchFile
deriving DecidableEq

/-- Which session the `ftp_object` decorator resolves for a call, following the
`if not args.get('ftp') / if server / elif login / else` chain in `decorate`.
`ftpArg` states whether an ftp object was passed, `loginArg` whether a login
dict was. -/
inductive SessSpec where
  | explicitFtp
  | fromServer (name : String)
  | fromLogin
  | defaultConfig
deriving DecidableEq

/-- The decorator's resolution order: explicit ftp object, then named server,
then login credentials, then the default-configured server. -/
def ftp_object_resolve (ftpArg : Bool) (server : Option String) (loginArg : Bool) :
    SessSpec :=
  if ftpArg then .explicitFtp
  else
    match server with
    | some name => .fromServer name
    | none => if loginArg then .fromLogin else .defaultConfig

/-- Protocol-level events emitted by `upload` / `download`, in program order.
Each decorated sub-call is tagged with the session resolved for it and the
`close` argument it received. -/
inductive Ev where
  | lsCall (sess : SessSpec) (path : String) (close : Bool)
  | isDirCall (sess : SessSpec) (path : String) (close : Bool)
  | mkdCall (path : String)
  | typeI
  | openLocal (path : String)
  | retrCall (path : String)
  | storCall (path : String)
  | quitSess
deriving DecidableEq

/-- `ftp.nlst(path)`: listing a file path returns that one path; listing a
directory returns its immediate children; anything else returns `[]`. -/
def nlst (r : RemoteFS) (p : String) : List String :=
  if hasFile r.files p then [p]
  else (r.files.map Prod.fst ++ r.dirs).filter
    (fun q => rsplitParent q == p && q != p)

/-! ### The `Ftp` context manager (`__init__` / `__enter__` / `__exit__`) -/

/-- The world of live sessions: a supply of fresh ids, the set of open session
ids, and the log of `quit()` calls issued so far (most recent first). -/
structure SessWorld where
  nextId : Nat
  openIds : List Nat
  quitLog : List Nat
deriving DecidableEq

/-- Opening a fresh session (`get_ftp` / `get_ftp_from_config`). -/
def newSession (w : SessWorld) : Nat × SessWorld :=
  (w.nextId,
   { nextId := w.nextId + 1, openIds := w.nextId :: w.openIds, quitLog := w.quitLog })

/-- `sid.quit()`: the session stops being open and the call is logged. -/
def quitWorld (sid : Nat) (w : SessWorld) : SessWorld :=
  { w with openIds := w.openIds.erase sid, quitLog := sid :: w.quitLog }

/-- `Ftp.__init__(ftp, server, login)`: keep a supplied session, otherwise open
a new one from the named server config, the login dict, or the default config. -/
def Ftp_init (ftpArg : Option Nat) (server : Option String) (loginArg : Bool)
    (w : SessWorld) : Nat × SessWorld :=
  match ftpArg with
  | some f => (f, w)
  | none =>
    match server with
    | some _ => newSession w
    | none => if loginArg then newSession w else newSession w

/-- `with Ftp(ftp, server, login) as f: body` — `__enter__` hands out
`self.ftp`; `__exit__` runs `self.ftp.quit()` on every exit path, normal or
exceptional.  The body is abstracted to its exit mode (`bodyThrows`); it does
not itself touch the session world. -/
def withFtp (ftpArg : Option Nat) (server : Option String) (loginArg : Bool)
    (bodyThrows : Bool) (w : SessWorld) : SessWorld × Bool :=
  (quitWorld (Ftp_init ftpArg server loginArg w).1 (Ftp_init ftpArg server loginArg w).2,
   bodyThrows)

/-! ### `is_dir`: the change-directory probe -/

/-- An ftplib session: the current-working-directory cursor and whether the
connection has been closed. -/
structure FtpSession where
  cwd : String
  closed : Bool
deriving DecidableEq

/-- `ftp.quit()` on a session value. -/
def quitSession (s : FtpSession) : FtpSession := { s with closed := true }

/-- `ftp.cwd(path)`: succeeds exactly when `path` is a directory on the server,
moving the cursor there; otherwise raises `ftplib.error_perm`, leaving the
cursor unchanged (`none`). -/
def cwdCmd (r : RemoteFS) (path : String) (s : FtpSession) : Option FtpSession :=
  if path ∈ r.dirs then some { s with cwd := path } else none

/-- How an `is_dir` call ends: a boolean return, or an uncaught exception (the
restoring `ftp.cwd(current)` sits outside the `try`). -/
inductive IsDirOut where
  | ret (b : Bool)
  | raised
deriving DecidableEq

/-- `is_dir(path)` on a given session: record `current = ftp.pwd()`, try
`ftp.cwd(path)` (an `error_perm` is caught and yields `False`), then restore
with `ftp.cwd(current)` and return `True`; `close` triggers `ftp.quit()` on the
return paths. -/
def is_dir (r : RemoteFS) (path : String) (s : FtpSession) (close : Bool) :
    IsDirOut × FtpSession :=
  let current := s.cwd
  match cwdCmd r path s with
  | none => (.ret false, if close then quitSession s else s)
  | some s1 =>
    match cwdCmd r current s1 with
    | none => (.raised, s1)
    | some s2 => (.ret true, if close then quitSession s2 else s2)

/-! ### `mkdirs` -/

/-- The prefixes `'/'.join(dirs[:i+1])` that the `mkdirs` loop scans, ancestors
first. -/
def mkdirsPrefixes (path : String) : List String :=
  let parts := pySplit path
  (List.range parts.length).map (fun i => String.intercalate "/" (parts.take (i + 1)))

/-- The `mkdirs` loop over a list of prefixes: for each prefix in order, if it
is nonempty and not yet a directory (per `is_dir` on the worker's own session,
`close=False`), issue `ftp.mkd`.  Returns the resulting directory set together
with the `mkd` commands issued, in order. -/
def mkdirsGo : List String → List String → List String → List String × List String
  | [], dirs, log => (dirs, log)
  | q :: rest, dirs, log =>
    if q ≠ "" ∧ q ∉ dirs then mkdirsGo rest (dirs ++ [q]) (log ++ [q])
    else mkdirsGo rest dirs log

/-- `mkdirs(path)` acting on the remote directory set. -/
def mkdirs (path : String) (dirs : List String) : List String × List String :=
  mkdirsGo (mkdirsPrefixes path) dirs []

/-! ### `upload` and `download` -/

/-- Result of one `upload` call: the raised error if any, the remote filesystem
reached at that point, and the event trace. -/
structure UpOut where
  err : Option UErr
  remote : RemoteFS
  events : List Ev
deriving DecidableEq

/-- Shallow embedding of `upload(src, dst, force, makedirs, ftp, server, login,
close)`.  `probeDirs` is the directory set of the server reached by the
*default-configured* session: the `is_dir(dir)` check on the makedirs path
passes no session at all, so the `ftp_object` decorator resolves a fresh
default session for that one probe (with `close` defaulting to `True`), no
matter which `ftp` / `server` / `login` the caller supplied to `upload`
itself.  The `mkdirs(dir, ftp, close=False)` call that may follow runs on the
caller's session, hence against `remote.dirs`. -/
def upload (src dst : String) (force makedirs : Bool)
    (ftpArg : Bool) (server : Option String) (loginArg : Bool) (close : Bool)
    (remote : RemoteFS) (probeDirs : List String) (loc : LocalFS) : UpOut :=
  let sess := ftp_object_resolve ftpArg server loginArg
  let ev0 := [Ev.lsCall sess dst false]
  if force = false ∧ nlst remote dst ≠ [] then
    { err := some .alreadyExists, remote := remote,
      events := ev0 ++ if close then [Ev.quitSess] else [] }
  else
    let dir := rsplitParent dst
    let ev1 := ev0 ++
      if makedirs then [Ev.isDirCall (ftp_object_resolve false none false) dir true]
      else []
    let dirs2 :=
      if makedirs ∧ dir ∉ probeDirs then (mkdirs dir remote.dirs).1 else remote.dirs
    let mkLog :=
      if makedirs ∧ dir ∉ probeDirs then (mkdirs dir remote.dirs).2 else []
    let remote2 : RemoteFS := { remote with dirs := dirs2 }
    let ev2 := ev1 ++ mkLog.map Ev.mkdCall ++ [Ev.lsCall sess dst false, Ev.typeI]
    match lookupFile loc.files src with
    | none => { err := some .noSuchFile, remote := remote2, events := ev2 }
    | some c =>
      { err := none,
        remote := { remote2 with files := setFile remote2.files dst c },
        events := ev2 ++ [Ev.openLocal src, Ev.storCall dst] ++
          if close then [Ev.quitSess] else [] }

/-- Result of one `download` call: error if any, local filesystem reached, and
the event trace. -/
structure DownOut where
  err : Option UErr
  loc : LocalFS
  events : List Ev
deriving DecidableEq

/-- `os.path.isfile(dst)`. -/
def isfile (l : LocalFS) (p : String) : Bool := hasFile l.files p

/-- `os.path.exists(p)` over the local model (`""` exists for no state). -/
def pathExists (l : LocalFS) (p : String) : Bool :=
  hasFile l.files p || decide (p ∈ l.dirs)

/-- `os.makedirs(p)`: creates `p` together with its missing ancestors; raises
(`none`) on the empty path. -/
def osMakedirs (l : LocalFS) (p : String) : Option LocalFS :=
  if p = "" then none
  else some { l with
    dirs := l.dirs ++ (mkdirsPrefixes p).filter
      (fun q => q != "" && !l.dirs.contains q) }

/-- Shallow embedding of `download(src, dst, force, makedirs, ...)`: set binary
mode, fail with `FileExistsError` when `dst` is a local file and `force` is
false, create the missing parent directory when `makedirs`, then `open(dst,
'wb')` (truncating `dst`) and stream `RETR src` into it; a missing remote `src`
raises after the truncation. -/
def download (src dst : String) (force makedirs : Bool)
    (ftpArg : Bool) (server : Option String) (loginArg : Bool) (close : Bool)
    (remote : RemoteFS) (loc : LocalFS) : DownOut :=
  let ev0 := [Ev.typeI]
  if isfile loc dst = true ∧ force = false then
    { err := some .alreadyExists, loc := loc,
      events := ev0 ++ if close then [Ev.quitSess] else [] }
  else
    let dirName := osDirname dst
    match (if pathExists loc dirName = false ∧ makedirs = true
           then osMakedirs loc dirName else some loc) with
    | none => { err := some .noSuchFile, loc := loc, events := ev0 }
    | some l1 =>
      let l2 : LocalFS := { l1 with files := setFile l1.files dst [] }
      match lookupFile remote.files src with
      | none =>
        { err := some .noSuchFile, loc := l2,
          events := ev0 ++ [Ev.openLocal dst, Ev.retrCall src] }
      | some c =>
        { err := none,
          loc := { l2 with files := setFile l2.files dst c },
          events := ev0 ++ [Ev.openLocal dst, Ev.retrCall src] ++
            (if close then [Ev.quitSess] else []) }

/-! ### The worker retry loop and the batch engine -/

/-- One queued work item, as put on the queue by `_ftp_multiple`. -/
structure Item where
  src : String
  dst : String
  force : Bool
  makedirs : Bool
deriving DecidableEq

/-- The `for i in range(retries): try ... break / except ... / else` loop around
one dequeued item.  `op` performs one single-item transfer attempt on state
`ρ`, returning the raised error (if any) and the state afterwards.  Returns
(attempts made, recorded as failed?, final state); the accumulator `i` counts
the attempts already made. -/
def retryRun {ρ : Type} (op : ρ → Option UErr × ρ) : Nat → Nat → ρ → Nat × Bool × ρ
  | 0, i, st => (i, true, st)
  | n + 1, i, st =>
    match op st with
    | (none, st1) => (i + 1, false, st1)
    | (some _, st1) => retryRun op n (i + 1) st1

/-- One worker draining its share of the queue in order: per item it runs the
retry loop with the full budget and, on exhaustion, appends the item's `src` to
its failure list.  Returns one `(src, attempts, failed)` triple per item, plus
the final state. -/
def workerTrace {ρ : Type} (op : Item → ρ → Option UErr × ρ) (budget : Nat) :
    List Item → ρ → List (String × Nat × Bool) × ρ
  | [], st => ([], st)
  | it :: rest, st =>
    let r := retryRun (op it) budget 0 st
    let tr := workerTrace op budget rest r.2.2
    ((it.src, r.1, r.2.1) :: tr.1, tr.2)

/-- The failure list the worker accumulates via `result.append(...)`. -/
def workerFailures {ρ : Type} (op : Item → ρ → Option UErr × ρ) (budget : Nat)
    (items : List Item) (st : ρ) : List String :=
  ((workerTrace op budget items st).1.filter (fun e => e.2.2)).map (fun e => e.1)

/-- The upload attempt made by `_ftp_worker_upload` for one item:
`upload(ftp=ftp, server=server, login=login, close=False, **data)` on the
worker's own session; the state threaded between attempts is the remote
filesystem. -/
def workerUploadOp (server : Option String) (loginArg : Bool)
    (probeDirs : List String) (loc : LocalFS) (it : Item) (remote : RemoteFS) :
    Option UErr × RemoteFS :=
  let out := upload it.src it.dst it.force it.makedirs true server loginArg false
    remote probeDirs loc
  (out.err, out.remote)

/-- Outcome of a `_ftp_multiple` run: what the parent process returns, what the
forked worker's copy of `result` holds when it exits, and the final remote
state. -/
structure MultiOut where
  parentResult : List String
  childResult : List String
  remote : RemoteFS
deriving DecidableEq

/-- `_ftp_multiple(files, 'upload', force, makedirs, ...)` under CPython fork
semantics.  The parent builds the queue from `files`, creates `result = []`,
and starts a `multiprocessing.Pool` whose worker processes each receive a
fork-time copy-on-write *copy* of `result`; `result.append` in a worker mutates
only that copy.  After `queue.join_thread()` and `pool.join()` the parent
returns its own, never-mutated `result`.  The schedule modelled here is the one
worker draining the whole queue. -/
def ftp_multiple_upload (files : List (String × String)) (force makedirs : Bool)
    (cfg : Option Nat) (server : Option String) (loginArg : Bool)
    (remote : RemoteFS) (probeDirs : List String) (loc : LocalFS) : MultiOut :=
  let items := files.map
    (fun sd => { src := sd.1, dst := sd.2, force := force, makedirs := makedirs : Item })
  let result : List String := []
  let childCopy := result
  let childFailures :=
    workerFailures (workerUploadOp server loginArg probeDirs loc) (retriesOf cfg)
      items remote
  let remote1 :=
    (workerTrace (workerUploadOp server loginArg probeDirs loc) (retriesOf cfg)
      items remote).2
  { parentResult := result,
    childResult := childCopy ++ childFailures,
    remote := remote1 }

/-- The concrete scenario of the spec: remote `/remote/x` already exists. -/
def c1remote : RemoteFS := ⟨[("/remote/x", [1])], ["/remote"]⟩

/-- The concrete scenario of the spec: local `/local/x` is the file to send. -/
def c1local : LocalFS := ⟨[("/local/x", [2])], ["/local"]⟩

/-- `upload_multiple({"/local/x": "/remote/x"})` with `force=False` (and the
`upload_multiple` default `makedirs=False`) on default config. -/
def c1out : MultiOut :=
  ftp_multiple_upload [("/local/x", "/remote/x")] false false none none false
    c1remote [] c1local

/-! ### The pool workers' queue protocol (`while not queue.empty(): queue.get(True)`) -/

/-- Where one pool worker stands in its drain loop: about to test
`queue.empty()`, past a negative emptiness test and about to call the blocking
`queue.get(True)`, transferring a dequeued item, or exited. -/
inductive WPC where
  | checking
  | fetching
  | working (item : Nat)
  | finished
deriving DecidableEq

/-- Global state of the drain protocol: the queue contents, each worker's
position, and the items whose single-item transfer has completed (in order). -/
structure CState where
  queue : List Nat
  workers : List WPC
  processed : List Nat
deriving DecidableEq

/-- Interleaving semantics of the workers' loop.  `queue.empty()` and
`queue.get(True)` are separate, non-atomic operations; a worker that passed the
emptiness test and finds the queue drained at `get` has no step: `get(True)`
blocks forever, since the queue is never refilled. -/
inductive CStep : CState → CState → Prop
  | seeNonempty (s : CState) (i : Nat)
      (h : s.workers.get? i = some .checking) (hq : s.queue ≠ []) :
      CStep s ⟨s.queue, s.workers.set i .fetching, s.processed⟩
  | seeEmpty (s : CState) (i : Nat)
      (h : s.workers.get? i = some .checking) (hq : s.queue = []) :
      CStep s ⟨s.queue, s.workers.set i .finished, s.processed⟩
  | take (s : CState) (i : Nat) (x : Nat) (rest : List Nat)
      (h : s.workers.get? i = some .fetching) (hq : s.queue = x :: rest) :
      CStep s ⟨rest, s.workers.set i (.working x), s.processed⟩
  | finish (s : CState) (i : Nat) (x : Nat)
      (h : s.workers.get? i = some (.working x)) :
      CStep s ⟨s.queue, s.workers.set i .checking, s.processed ++ [x]⟩

/-- Two workers, one queued item: the initial state. -/
def qInit : CState := ⟨[7], [.checking, .checking], []⟩

/-- The state reached when both workers pass the emptiness test before either
dequeues: worker 0 takes item 7, finishes it and exits; worker 1 is stuck in
the blocking `get` on the now-empty queue. -/
def qBlocked : CState := ⟨[], [.finished, .fetching], [7]⟩

/-! ### The tree walker -/

mutual
/-- A remote directory tree: entries carry full remote paths; a child is a
directory exactly when `is_dir` answers true for it. -/
inductive REntry where
  | file (p : String)
  | dir (p : String) (children : RList)
deriving DecidableEq
/-- Children lists of a remote directory. -/
inductive RList where
  | nil
  | cons (e : REntry) (l : RList)
deriving DecidableEq
end

/-- The yield filter `pattern and re.search(pattern, path) or not pattern`:
pattern matching is an external primitive, modelled as a predicate; `none`
stands for `pattern=None` (everything matches). -/
def matchPat (pat : Option (String → Bool)) (p : String) : Bool :=
  match pat with
  | none => true
  | some f => f p

mutual
/-- `tree(src, pattern)`: for each child of the node (via `ls`), recurse when
`is_dir`, otherwise yield the path when it matches. -/
def tree (pat : Option (String → Bool)) : REntry → List String
  | .file p => if matchPat pat p then [p] else []
  | .dir _ cs => treeList pat cs
/-- The `for path in ls(src)` loop of `tree`, in listing order. -/
def treeList (pat : Option (String → Bool)) : RList → List String
  | .nil => []
  | .cons e l => tree pat e ++ treeList pat l
end

mutual
/-- All non-directory paths of a tree, depth-first. -/
def filePaths : REntry → List String
  | .file p => [p]
  | .dir _ cs => filePathsList cs
/-- All non-directory paths below a children list. -/
def filePathsList : RList → List String
  | .nil => []
  | .cons e l => filePaths e ++ filePathsList l
end

mutual
/-- All directory paths of a tree (the node itself included). -/
def dirPaths : REntry → List String
  | .file _ => []
  | .dir p cs => p :: dirPathsList cs
/-- All directory paths below a children list. -/
def dirPathsList : RList → List String
  | .nil => []
  | .cons e l => dirPaths e ++ dirPathsList l
end

/-- The spec's example tree: files `a.txt`, `a.csv` and `dir/b.txt`. -/
def scenarioTree : REntry :=
  .dir "" (.cons (.file "a.txt") (.cons (.file "a.csv")
    (.cons (.dir "dir" (.cons (.file "dir/b.txt") .nil)) .nil)))

/-! ### `str.replace` as used by `download_tree` / `upload_tree` -/

/-- Python `p.replace('', d)`: inserts `d` at every character boundary. -/
def pyRepEmpty (d : List Char) : List Char → List Char
  | [] => d
  | c :: cs => d ++ c :: pyRepEmpty d cs

/-- The left-to-right scan of Python `str.replace` for a nonempty needle `s`:
the counter argument skips the remainder of an occurrence that has just been
replaced; at counter 0, an occurrence of `s` starting at the head is replaced
by `d` and its characters are consumed, otherwise the head character is kept. -/
def pyRepGo (s d : List Char) : Nat → List Char → List Char
  | _ + 1, [] => []
  | k + 1, _ :: cs => pyRepGo s d k cs
  | 0, [] => []
  | 0, c :: cs =>
    if s ≠ [] ∧ s.isPrefixOf (c :: cs) then d ++ pyRepGo s d (s.length - 1) cs
    else c :: pyRepGo s d 0 cs

/-- Python `p.replace(s, d)` on character lists: every non-overlapping
occurrence of `s` in `p`, scanned left to right, is replaced by `d`. -/
def pyReplace (p s d : List Char) : List Char :=
  if s = [] then pyRepEmpty d p else pyRepGo s d 0 p

/-- The destination path `path.replace(src, dst)` computed for each walked
source path by both `download_tree` and `upload_tree`. -/
def treeDest (src dst path : List Char) : List Char := pyReplace path src dst

/-- The `{path: path.replace(src, dst) for path in ...}` mapping built by
`download_tree`. -/
def download_tree_files (src dst : List Char) (paths : List (List Char)) :
    List (List Char × List Char) :=
  paths.map (fun p => (p, treeDest src dst p))

/-- The `files[str(path)] = str(path).replace(src, dst)` mapping built by
`upload_tree`. -/
def upload_tree_files (src dst : List Char) (paths : List (List Char)) :
    List (List Char × List Char) :=
  paths.map (fun p => (p, treeDest src dst p))

/-! ## Theorems -/

/-- C1 (code bug): the scenario batch upload of `/local/x` onto an already
existing `/remote/x` with `force=False`.  The forked worker exhausts its
retries and appends `/local/x` to its *copy* of the failure list, and the
remote file is left unchanged — but the list `_ftp_multiple` returns to the
caller is the parent's, which stays `[]`: the failure is silently dropped,
contradicting the invariant that every untransferred item is reported. -/
theorem C1_result_list_drops_failures :
    c1out.parentResult = [] ∧ c1out.childResult = ["/local/x"] ∧
      c1out.remote = c1remote := by
  decide

/-- C2 counterexample: a caller-supplied, open session (id 7) is no longer open
after the `Ftp` scope exits — `__exit__` quits it even though the guard did not
create it, contrary to the claim that a pre-existing session stays open. -/
theorem C2_counterexample_supplied_session_closed :
    (withFtp (some 7) none false false ⟨8, [7], []⟩).1.openIds = [] ∧
      (withFtp (some 7) none false false ⟨8, [7], []⟩).1.quitLog = [7] := by
  decide

/-- C2 (amended): on every exit path of the scope (normal or exception) and for
every way the session was obtained (supplied, named-server, login, default),
the guard terminates the session it holds exactly once — one new `quit` is
logged for it and it is removed from the open set.  In particular a
caller-supplied session is also closed: ownership is effectively taken. -/
theorem C2_guard_quits_exactly_once (ftpArg : Option Nat) (server : Option String)
    (loginArg bodyThrows : Bool) (w : SessWorld) :
    ((withFtp ftpArg server loginArg bodyThrows w).1.quitLog).count
        (Ftp_init ftpArg server loginArg w).1
      = ((Ftp_init ftpArg server loginArg w).2.quitLog).count
          (Ftp_init ftpArg server loginArg w).1 + 1 ∧
    (withFtp ftpArg server loginArg bodyThrows w).1.openIds
      = ((Ftp_init ftpArg server loginArg w).2.openIds).erase
          (Ftp_init ftpArg server loginArg w).1 := by
  constructor <;> simp [withFtp, quitWorld]

/-- C4: whenever `is_dir` returns (whether `True` or `False`), the session's
current-working-directory cursor is exactly what it was before the call: the
probe `cwd(path)` is undone by `cwd(current)` on the success path, and a failed
`cwd(path)` never moved the cursor. -/
theorem C4_is_dir_preserves_cwd (r : RemoteFS) (path : String) (s : FtpSession)
    (close : Bool) (b : Bool) (h : (is_dir r path s close).1 = .ret b) :
    ((is_dir r path s close).2).cwd = s.cwd := by
  unfold is_dir at *
  cases hc : cwdCmd r path s with
  | none =>
    simp only [hc] at h ⊢
    cases close <;> simp [quitSession]
  | some s1 =>
    simp only [hc] at h ⊢
    cases hc2 : cwdCmd r s.cwd s1 with
    | none => simp [hc2] at h
    | some s2 =>
      have h2 : s2.cwd = s.cwd := by
        unfold cwdCmd at hc2
        by_cases hmem : s.cwd ∈ r.dirs
        · simp [hmem] at hc2
          rw [← hc2]
        · simp [hmem] at hc2
      simp only [hc2]
      cases close <;> simp [quitSession, h2]

/-- C4 witness: a concrete probe of an existing directory returns `True` with
the cursor restored to `/`. -/
theorem C4_witness :
    ((is_dir ⟨[], ["/", "/a"]⟩ "/a" ⟨"/", false⟩ false).2).cwd = "/" :=
  C4_is_dir_preserves_cwd ⟨[], ["/", "/a"]⟩ "/a" ⟨"/", false⟩ false true (by decide)

/-- The retry loop, when it ends in failure, has spent its whole budget: the
attempt counter advances from `i` by exactly the remaining budget `n`. -/
theorem retryRun_failed_attempts {ρ : Type} (op : ρ → Option UErr × ρ) :
    ∀ (n i : Nat) (st : ρ), (retryRun op n i st).2.1 = true →
      (retryRun op n i st).1 = i + n := by
  intro n
  induction n with
  | zero => intro i st _; rfl
  | succ n ih =>
    intro i st h
    unfold retryRun at h ⊢
    cases hop : op st with
    | mk e st1 =>
      cases e with
      | none => simp [hop] at h
      | some u =>
        simp only [hop] at h ⊢
        have := ih (i + 1) st1 h
        omega

/-- C5: every item recorded in the failure collection was attempted exactly
`CFG.get('retries', 5)` times — the `for ... else` fires only when all
`retriesOf cfg` attempts raised. -/
theorem C5_failed_items_spend_full_budget {ρ : Type}
    (op : Item → ρ → Option UErr × ρ) (cfg : Option Nat) (items : List Item)
    (st : ρ) (src : String) (att : Nat)
    (h : (src, att, true) ∈ (workerTrace op (retriesOf cfg) items st).1) :
    att = retriesOf cfg := by
  induction items generalizing st with
  | nil => simp [workerTrace] at h
  | cons it rest ih =>
    unfold workerTrace at h
    simp only [List.mem_cons] at h
    cases h with
    | inl h0 =>
      have h1 : (retryRun (op it) (retriesOf cfg) 0 st).1 = att := by
        have := congrArg (fun t : String × Nat × Bool => t.2.1) h0
        simpa using this.symm
      have h2 : (retryRun (op it) (retriesOf cfg) 0 st).2.1 = true := by
        have := congrArg (fun t : String × Nat × Bool => t.2.2) h0
        simpa using this.symm
      have := retryRun_failed_attempts (op it) (retriesOf cfg) 0 st h2
      omega
    | inr h0 => exact ih _ h0

/-- C5 witness: with default config (budget 5) and an attempt that always
raises, the single item is recorded as failed with exactly 5 attempts. -/
theorem C5_witness :
    (("/l/x", 5, true) ∈
      (workerTrace (fun _ st => (some UErr.alreadyExists, st)) (retriesOf none)
        [⟨"/l/x", "/r/x", false, false⟩] (0 : Nat)).1) ∧ 5 = retriesOf none :=
  ⟨by decide,
   C5_failed_items_spend_full_budget (fun _ st => (some UErr.alreadyExists, st))
     none [⟨"/l/x", "/r/x", false, false⟩] 0 "/l/x" 5 (by decide)⟩

/-- C9: with `makedirs=True`, whenever `upload` reaches its makedirs check (no
overwrite error was raised), the `is_dir(dir)` probe for the destination's
parent appears in the trace resolved as a *fresh default-config session* that
is closed right after (`close=True`) — regardless of the `ftp`, `server` or
`login` the caller supplied to `upload` itself. -/
theorem C9_makedirs_probe_uses_default_session (src dst : String) (force : Bool)
    (ftpArg : Bool) (server : Option String) (loginArg close : Bool)
    (remote : RemoteFS) (probeDirs : List String) (loc : LocalFS)
    (hnoraise : ¬(force = false ∧ nlst remote dst ≠ [])) :
    Ev.isDirCall .defaultConfig (rsplitParent dst) true ∈
      (upload src dst force true ftpArg server loginArg close remote probeDirs
        loc).events := by
  unfold upload
  simp only [if_neg hnoraise]
  have hresolve : ftp_object_resolve false none false = SessSpec.defaultConfig := rfl
  cases hl : lookupFile loc.files src <;>
    simp [hresolve, List.mem_append]

/-- C9 witness: an upload carrying an explicit session, a server name and a
login still probes the parent directory over the default-config session. -/
theorem C9_witness :
    Ev.isDirCall .defaultConfig "/r" true ∈
      (upload "/l/x" "/r/x" true true true (some "srv") true true
        ⟨[("/r/x", [1])], ["/r"]⟩ [] ⟨[("/l/x", [2])], []⟩).events :=
  C9_makedirs_probe_uses_default_session "/l/x" "/r/x" true true (some "srv") true
    true ⟨[("/r/x", [1])], ["/r"]⟩ [] ⟨[("/l/x", [2])], []⟩ (by decide)

/-- Whatever is a directory before `mkdirsGo` runs is still one afterwards. -/
theorem mkdirsGo_superset :
    ∀ (pres d log : List String) (x : String), x ∈ d → x ∈ (mkdirsGo pres d log).1 := by
  intro pres
  induction pres with
  | nil => intro d log x hx; exact hx
  | cons q rest ih =>
    intro d log x hx
    unfold mkdirsGo
    by_cases hq : q ≠ "" ∧ q ∉ d
    · rw [if_pos hq]; exact ih _ _ x (List.mem_append_left _ hx)
    · rw [if_neg hq]; exact ih _ _ x hx

/-- After `mkdirsGo`, every nonempty scanned prefix is a directory. -/
theorem mkdirsGo_covers :
    ∀ (pres d log : List String) (q : String), q ∈ pres → q ≠ "" →
      q ∈ (mkdirsGo pres d log).1 := by
  intro pres
  induction pres with
  | nil => intro d log q hq; simp at hq
  | cons q0 rest ih =>
    intro d log q hq hne
    unfold mkdirsGo
    rcases List.mem_cons.1 hq with h0 | h0
    · subst h0
      by_cases hc : q ≠ "" ∧ q ∉ d
      · rw [if_pos hc]
        exact mkdirsGo_superset rest _ _ q (List.mem_append_right _ (List.mem_singleton.2 rfl))
      · rw [if_neg hc]
        push_neg at hc
        exact mkdirsGo_superset rest _ _ q (hc hne)
    · by_cases hc : q0 ≠ "" ∧ q0 ∉ d
      · rw [if_pos hc]; exact ih _ _ q h0 hne
      · rw [if_neg hc]; exact ih _ _ q h0 hne

/-- When every nonempty scanned prefix already is a directory, `mkdirsGo`
changes nothing and issues no `mkd`. -/
theorem mkdirsGo_noop :
    ∀ (pres d log : List String), (∀ q ∈ pres, q ≠ "" → q ∈ d) →
      mkdirsGo pres d log = (d, log) := by
  intro pres
  induction pres with
  | nil => intro d log _; rfl
  | cons q0 rest ih =>
    intro d log hall
    unfold mkdirsGo
    have hc : ¬(q0 ≠ "" ∧ q0 ∉ d) := by
      by_cases he : q0 = ""
      · intro hx; exact hx.1 he
      · intro hx; exact hx.2 (hall q0 (List.mem_cons_self q0 rest) he)
    rw [if_neg hc]
    exact ih d log (fun q hq hne => hall q (List.mem_cons_of_mem q0 hq) hne)

/-- The `mkd` log of `mkdirsGo` extends the accumulator by a subsequence of the
scanned prefixes, each of which was not a directory beforehand and nonempty. -/
theorem mkdirsGo_log :
    ∀ (pres d log : List String), ∃ extra,
      (mkdirsGo pres d log).2 = log ++ extra ∧ extra.Sublist pres ∧
        ∀ q ∈ extra, q ∉ d ∧ q ≠ "" := by
  intro pres
  induction pres with
  | nil =>
    intro d log
    exact ⟨[], by simp [mkdirsGo], List.nil_sublist _, by simp⟩
  | cons q0 rest ih =>
    intro d log
    unfold mkdirsGo
    by_cases hc : q0 ≠ "" ∧ q0 ∉ d
    · rw [if_pos hc]
      obtain ⟨extra, heq, hsub, hmem⟩ := ih (d ++ [q0]) (log ++ [q0])
      refine ⟨q0 :: extra, ?_, List.Sublist.cons₂ q0 hsub, ?_⟩
      · rw [heq]; simp
      · intro q hq
        rcases List.mem_cons.1 hq with h0 | h0
        · subst h0; exact ⟨hc.2, hc.1⟩
        · have := hmem q h0
          exact ⟨fun hd => this.1 (List.mem_append_left _ hd), this.2⟩
    · rw [if_neg hc]
      obtain ⟨extra, heq, hsub, hmem⟩ := ih d log
      exact ⟨extra, heq, List.Sublist.cons q0 hsub, hmem⟩

/-- C6: `mkdirs` is idempotent — a second run on the directory set produced by
the first changes nothing and issues no `mkd` command — and each run scans the
path's prefixes in ancestor-before-descendant order (`mkdirsPrefixes` order, of
which the issued commands are a subsequence), issuing `mkd` only for nonempty
prefixes that were not yet directories. -/
theorem C6_mkdirs_idempotent_and_ordered (path : String) (dirs : List String) :
    (mkdirs path (mkdirs path dirs).1).1 = (mkdirs path dirs).1 ∧
    (mkdirs path (mkdirs path dirs).1).2 = [] ∧
    ((mkdirs path dirs).2).Sublist (mkdirsPrefixes path) ∧
    (∀ q ∈ (mkdirs path dirs).2, q ∉ dirs ∧ q ≠ "") := by
  have hcov : ∀ q ∈ mkdirsPrefixes path, q ≠ "" → q ∈ (mkdirs path dirs).1 :=
    fun q hq hne => mkdirsGo_covers (mkdirsPrefixes path) dirs [] q hq hne
  have hnoop := mkdirsGo_noop (mkdirsPrefixes path) (mkdirs path dirs).1 [] hcov
  obtain ⟨extra, heq, hsub, hmem⟩ := mkdirsGo_log (mkdirsPrefixes path) dirs []
  refine ⟨?_, ?_, ?_, ?_⟩
  · show (mkdirsGo (mkdirsPrefixes path) (mkdirs path dirs).1 []).1 = _
    rw [hnoop]
  · show (mkdirsGo (mkdirsPrefixes path) (mkdirs path dirs).1 []).2 = []
    rw [hnoop]
  · show (mkdirs path dirs).2.Sublist (mkdirsPrefixes path)
    have : (mkdirs path dirs).2 = extra := by simpa using heq
    rw [this]; exact hsub
  · intro q hq
    have : (mkdirs path dirs).2 = extra := by simpa using heq
    rw [this] at hq
    exact hmem q hq

/-- C6 witness: creating `a/b/c` when only `a` exists issues `mkd` for `a/b`,
a prefix that was not yet a directory. -/
theorem C6_witness :
    ("a/b" ∈ (mkdirs "a/b/c" ["a"]).2) ∧ ("a/b" ∉ (["a"] : List String) ∧ "a/b" ≠ "") :=
  ⟨by decide,
   (C6_mkdirs_idempotent_and_ordered "a/b/c" ["a"]).2.2.2 "a/b" (by decide)⟩

mutual
/-- The walk yields exactly the pattern-matching file paths, in depth-first
order. -/
theorem tree_eq_filter (pat : Option (String → Bool)) :
    ∀ e : REntry, tree pat e = (filePaths e).filter (matchPat pat)
  | .file p => by
    cases hm : matchPat pat p <;> simp [tree, filePaths, List.filter, hm]
  | .dir p cs => treeList_eq_filter pat cs
/-- The walk over a children list yields exactly its pattern-matching file
paths. -/
theorem treeList_eq_filter (pat : Option (String → Bool)) :
    ∀ l : RList, treeList pat l = (filePathsList l).filter (matchPat pat)
  | .nil => rfl
  | .cons e l => by
    show tree pat e ++ treeList pat l = _
    rw [show filePathsList (.cons e l) = filePaths e ++ filePathsList l from rfl,
      List.filter_append, tree_eq_filter pat e, treeList_eq_filter pat l]
end

/-- C7: `tree(root, pattern)` yields, depth-first, exactly the non-directory
paths under the root that match the pattern — all of them when the pattern is
absent — and never yields a directory (in any tree whose file and directory
paths do not collide); on the spec's example tree with the `.txt` pattern it
yields exactly `a.txt` and `dir/b.txt`. -/
theorem C7_tree_yields_matching_files (pat : Option (String → Bool)) (e : REntry)
    (hdisj : ∀ q ∈ filePaths e, q ∉ dirPaths e) :
    tree pat e = (filePaths e).filter (matchPat pat) ∧
    tree none e = filePaths e ∧
    (∀ q, q ∈ tree pat e → q ∉ dirPaths e) ∧
    tree (some (fun p => ".txt".data.isSuffixOf p.data)) scenarioTree
      = ["a.txt", "dir/b.txt"] := by
  refine ⟨tree_eq_filter pat e, ?_, ?_, by decide⟩
  · rw [tree_eq_filter none e]
    exact List.filter_true _
  · intro q hq
    rw [tree_eq_filter pat e] at hq
    exact hdisj q (List.mem_filter.1 hq).1

/-- C7 witness: on the example tree the walk yields `a.txt` and `dir/b.txt`,
and the yielded path `a.txt` is not a directory. -/
theorem C7_witness :
    tree (some (fun p => ".txt".data.isSuffixOf p.data)) scenarioTree
        = ["a.txt", "dir/b.txt"] ∧
      "a.txt" ∉ dirPaths scenarioTree :=
  ⟨(C7_tree_yields_matching_files (some (fun p => ".txt".data.isSuffixOf p.data))
      scenarioTree (by decide)).2.2.2,
   (C7_tree_yields_matching_files (some (fun p => ".txt".data.isSuffixOf p.data))
      scenarioTree (by decide)).2.2.1 "a.txt" (by decide)⟩

/-- Writing a file then looking it up yields the written content. -/
theorem lookupFile_setFile_self (fs : List (String × Content)) (p : String)
    (c : Content) : lookupFile (setFile fs p c) p = some c := by
  induction fs with
  | nil => simp [setFile, lookupFile]
  | cons hd tl ih =>
    obtain ⟨q, c0⟩ := hd
    by_cases h : q = p
    · simp [setFile, h, lookupFile]
    · simp [setFile, h, lookupFile, ih]

/-- C3: on an already existing destination, `force=False` raises
`FileExistsError` with nothing transferred — the download leaves the local
filesystem untouched, the upload leaves the remote untouched and fails the same
way for *every* local filesystem, i.e. before the local source is even
opened — while `force=True` succeeds and the destination afterwards holds the
source's content. -/
theorem C3_overwrite_policy (src dst : String) (mk ftpArg : Bool)
    (server : Option String) (loginArg close : Bool)
    (remote : RemoteFS) (probeDirs : List String) (loc : LocalFS) (c cl : Content)
    (hdl : isfile loc dst = true)
    (hsrc : lookupFile remote.files src = some c)
    (hdir : osDirname dst ∈ loc.dirs)
    (hrd : hasFile remote.files dst = true)
    (hls : lookupFile loc.files src = some cl) :
    ((download src dst false mk ftpArg server loginArg close remote loc).err
        = some .alreadyExists ∧
      (download src dst false mk ftpArg server loginArg close remote loc).loc = loc) ∧
    ((download src dst true mk ftpArg server loginArg close remote loc).err = none ∧
      lookupFile
        ((download src dst true mk ftpArg server loginArg close remote loc).loc).files
        dst = some c) ∧
    (∀ loc2 : LocalFS,
      (upload src dst false mk ftpArg server loginArg close remote probeDirs loc2).err
          = some .alreadyExists ∧
        (upload src dst false mk ftpArg server loginArg close remote probeDirs
          loc2).remote = remote) ∧
    ((upload src dst true mk ftpArg server loginArg close remote probeDirs loc).err
        = none ∧
      lookupFile
        ((upload src dst true mk ftpArg server loginArg close remote probeDirs
          loc).remote).files dst = some cl) := by
  have hex : pathExists loc (osDirname dst) = true := by
    simp [pathExists, hdir]
  have hnl : nlst remote dst = [dst] := by
    simp [nlst, hrd]
  refine ⟨?_, ?_, ?_, ?_⟩
  · constructor <;> simp [download, hdl]
  · constructor <;>
      simp [download, hdl, hex, hsrc, lookupFile_setFile_self]
  · intro loc2
    constructor <;> simp [upload, hnl]
  · constructor <;> simp [upload, hls, lookupFile_setFile_self]

/-- C3 witness: a concrete state where both destinations exist; `force=False`
fails with the destination untouched (even with an empty local filesystem on
the upload side), `force=True` rewrites the destination with the source's
content. -/
theorem C3_witness :
    ((download "/a/s" "/a/d" false true false none false true
        ⟨[("/a/s", [1]), ("/a/d", [3])], ["/a"]⟩
        ⟨[("/a/s", [2]), ("/a/d", [4])], ["/a"]⟩).err = some .alreadyExists) ∧
    (lookupFile
      ((download "/a/s" "/a/d" true true false none false true
          ⟨[("/a/s", [1]), ("/a/d", [3])], ["/a"]⟩
          ⟨[("/a/s", [2]), ("/a/d", [4])], ["/a"]⟩).loc).files "/a/d" = some [1]) ∧
    ((upload "/a/s" "/a/d" false true false none false true
        ⟨[("/a/s", [1]), ("/a/d", [3])], ["/a"]⟩ []
        ⟨[], []⟩).remote = ⟨[("/a/s", [1]), ("/a/d", [3])], ["/a"]⟩) ∧
    (lookupFile
      ((upload "/a/s" "/a/d" true true false none false true
          ⟨[("/a/s", [1]), ("/a/d", [3])], ["/a"]⟩ []
          ⟨[("/a/s", [2]), ("/a/d", [4])], ["/a"]⟩).remote).files "/a/d"
        = some [2]) := by
  have h := C3_overwrite_policy "/a/s" "/a/d" true false none false true
    ⟨[("/a/s", [1]), ("/a/d", [3])], ["/a"]⟩ []
    ⟨[("/a/s", [2]), ("/a/d", [4])], ["/a"]⟩ [1] [2]
    (by decide) (by decide) (by decide) (by decide) (by decide)
  exact ⟨h.1.1, h.2.1.2, (h.2.2.1 ⟨[], []⟩).2, h.2.2.2.2⟩

/-- A list is a (boolean) prefix of itself followed by anything. -/
theorem isPrefixOf_append_self (s t : List Char) : s.isPrefixOf (s ++ t) = true := by
  induction s with
  | nil => cases t <;> rfl
  | cons a s ih => simp [List.isPrefixOf, ih]

/-- The skip counter of `pyRepGo` consumes exactly the characters of a replaced
occurrence. -/
theorem pyRepGo_skip (s d : List Char) :
    ∀ (m t : List Char), pyRepGo s d m.length (m ++ t) = pyRepGo s d 0 t := by
  intro m
  induction m with
  | nil => intro t; rfl
  | cons c m ih =>
    intro t
    show pyRepGo s d (m.length + 1) (c :: (m ++ t)) = _
    rw [show pyRepGo s d (m.length + 1) (c :: (m ++ t))
        = pyRepGo s d m.length (m ++ t) from rfl]
    exact ih t

/-- At an occurrence of the (nonempty) needle, `pyRepGo` emits the replacement
and consumes the occurrence. -/
theorem pyRepGo_match (s d t : List Char) (hs : s ≠ []) :
    pyRepGo s d 0 (s ++ t) = d ++ pyRepGo s d 0 t := by
  cases s with
  | nil => exact absurd rfl hs
  | cons a s' =>
    have hpre : (a :: s').isPrefixOf (a :: (s' ++ t)) = true :=
      isPrefixOf_append_self (a :: s') t
    have h1 : pyRepGo (a :: s') d 0 ((a :: s') ++ t)
        = d ++ pyRepGo (a :: s') d s'.length (s' ++ t) := by
      simp [pyRepGo, hpre]
    rw [h1, pyRepGo_skip]

/-- Across a stretch in which no occurrence of the needle starts, `pyRepGo`
copies the characters unchanged. -/
theorem pyRepGo_copy (s d : List Char) :
    ∀ (m t : List Char),
      (∀ i, i < m.length → s.isPrefixOf (m.drop i ++ t) = false) →
      pyRepGo s d 0 (m ++ t) = m ++ pyRepGo s d 0 t := by
  intro m
  induction m with
  | nil => intro t _; rfl
  | cons c m ih =>
    intro t hm
    have h0 : s.isPrefixOf (c :: (m ++ t)) = false := by
      have := hm 0 (by simp)
      simpa using this
    have hstep : pyRepGo s d 0 (c :: (m ++ t)) = c :: pyRepGo s d 0 (m ++ t) := by
      simp [pyRepGo, h0]
    show pyRepGo s d 0 (c :: (m ++ t)) = c :: (m ++ pyRepGo s d 0 t)
    rw [hstep, ih t (fun i hi => by simpa using hm (i + 1) (by simpa using hi))]

/-- C10: the destination paths built by `download_tree` / `upload_tree` rewrite
*every* occurrence of the source root, not only the leading prefix: on a walked
path of the shape `src ++ mid ++ src ++ rest` (with no other occurrence of
`src` starting inside `mid`), the second, inner occurrence is also replaced by
the destination root. -/
theorem C10_tree_dest_rewrites_inner_occurrences (s d m t : List Char)
    (hs : s ≠ [])
    (hm : ∀ i, i < m.length → s.isPrefixOf (m.drop i ++ (s ++ t)) = false) :
    treeDest s d (s ++ (m ++ (s ++ t))) = d ++ (m ++ (d ++ pyRepGo s d 0 t)) ∧
    download_tree_files s d [s ++ (m ++ (s ++ t))]
      = [(s ++ (m ++ (s ++ t)), d ++ (m ++ (d ++ pyRepGo s d 0 t)))] ∧
    upload_tree_files s d [s ++ (m ++ (s ++ t))]
      = [(s ++ (m ++ (s ++ t)), d ++ (m ++ (d ++ pyRepGo s d 0 t)))] := by
  have h1 : treeDest s d (s ++ (m ++ (s ++ t))) = d ++ (m ++ (d ++ pyRepGo s d 0 t)) := by
    show pyReplace (s ++ (m ++ (s ++ t))) s d = _
    unfold pyReplace
    rw [if_neg hs, pyRepGo_match s d (m ++ (s ++ t)) hs, pyRepGo_copy s d m (s ++ t) hm,
      pyRepGo_match s d t hs]
  exact ⟨h1, by simp [download_tree_files, h1], by simp [upload_tree_files, h1]⟩

/-- C10 witness: `/data/x/data/f.txt` with source root `/data` and destination
root `/loc` maps to a path whose *second* `/data` is also rewritten. -/
theorem C10_witness :
    treeDest "/data".data "/loc".data
        ("/data".data ++ ("/x".data ++ ("/data".data ++ "/f.txt".data)))
      = "/loc".data ++ ("/x".data ++
          ("/loc".data ++ pyRepGo "/data".data "/loc".data 0 "/f.txt".data)) :=
  (C10_tree_dest_rewrites_inner_occurrences "/data".data "/loc".data "/x".data
    "/f.txt".data (by decide) (by decide)).1

/-- A step never touches a worker other than the one it names. -/
theorem cstep_stuck_fetch (i : Nat) (s t : CState) (h : CStep s t)
    (hq : s.queue = []) (hw : s.workers.get? i = some .fetching) :
    t.queue = [] ∧ t.workers.get? i = some .fetching := by
  cases h with
  | seeNonempty j hj hq2 => exact absurd hq hq2
  | seeEmpty j hj hq2 =>
    refine ⟨hq, ?_⟩
    show (s.workers.set j WPC.finished).get? i = some .fetching
    by_cases hij : j = i
    · subst hij; rw [hw] at hj; simp at hj
    · rw [List.get?_set_ne _ _ hij]; exact hw
  | take j x rest hj hq2 => rw [hq] at hq2; simp at hq2
  | finish j x hj =>
    refine ⟨hq, ?_⟩
    show (s.workers.set j WPC.checking).get? i = some .fetching
    by_cases hij : j = i
    · subst hij; rw [hw] at hj; simp at hj
    · rw [List.get?_set_ne _ _ hij]; exact hw

/-- A worker that passed the emptiness test while the queue is already drained
is inside the blocking `queue.get(True)` forever: the queue is never refilled,
so along every further step sequence it stays in that position. -/
theorem blocked_worker_stays (i : Nat) (s t : CState)
    (hr : Relation.ReflTransGen CStep s t) (hq : s.queue = [])
    (hw : s.workers.get? i = some .fetching) :
    t.queue = [] ∧ t.workers.get? i = some .fetching := by
  induction hr with
  | refl => exact ⟨hq, hw⟩
  | tail h1 h2 ih => exact cstep_stuck_fetch i _ _ h2 ih.1 ih.2

/-- C8 (code bug): the `while not queue.empty(): queue.get(True)` drain loop is
not atomic.  With two workers and a single item, both can pass the emptiness
test before either dequeues; worker 0 then takes and transfers item 7 exactly
once and exits, while worker 1 reaches the blocking `get` on the now-empty
queue — a reachable state from which worker 1 never stops, contradicting the
claim that every worker stops without blocking once the queue is empty. -/
theorem C8_drain_race_blocks_worker :
    Relation.ReflTransGen CStep qInit qBlocked ∧
    qBlocked.queue = [] ∧ qBlocked.processed = [7] ∧
    (∀ t, Relation.ReflTransGen CStep qBlocked t →
      t.workers.get? 1 = some .fetching) := by
  refine ⟨?_, rfl, rfl, ?_⟩
  · have h1 : CStep qInit ⟨[7], [.fetching, .checking], []⟩ :=
      CStep.seeNonempty qInit 0 rfl (by decide)
    have h2 : CStep ⟨[7], [.fetching, .checking], []⟩
        ⟨[7], [.fetching, .fetching], []⟩ :=
      CStep.seeNonempty ⟨[7], [.fetching, .checking], []⟩ 1 rfl (by decide)
    have h3 : CStep ⟨[7], [.fetching, .fetching], []⟩
        ⟨[], [.working 7, .fetching], []⟩ :=
      CStep.take ⟨[7], [.fetching, .fetching], []⟩ 0 7 [] rfl rfl
    have h4 : CStep ⟨[], [.working 7, .fetching], []⟩
        ⟨[], [.checking, .fetching], [7]⟩ :=
      CStep.finish ⟨[], [.working 7, .fetching], []⟩ 0 7 rfl
    have h5 : CStep ⟨[], [.checking, .fetching], [7]⟩ qBlocked :=
      CStep.seeEmpty ⟨[], [.checking, .fetching], [7]⟩ 0 rfl rfl
    exact Relation.ReflTransGen.tail
      (Relation.ReflTransGen.tail
        (Relation.ReflTransGen.tail
          (Relation.ReflTransGen.tail (Relation.ReflTransGen.single h1) h2) h3) h4) h5
  · intro t hr
    exact (blocked_worker_stays 1 qBlocked t hr rfl rfl).2

/-- C8 witness: in the reached state itself, worker 1 is mid-`get` on an empty
queue. -/
theorem C8_witness : qBlocked.workers.get? 1 = some .fetching :=
  C8_drain_race_blocks_worker.2.2.2 qBlocked Relation.ReflTransGen.refl

end UmusFtp
